import Mathlib

/-!
Shallow embedding of `src/packages/browser/src/client/orchestrator.ts`:
the browser-mode test orchestrator of vitest.  The orchestrator keeps a
registry of live iframes (`iframes : Map<string, HTMLIFrameElement>`),
a set of still-running file identifiers (`runningFiles : Set<string>`),
listens on a broadcast channel for `done` / `error` / `viewport` events,
and drives sandbox creation per run either in shared mode (one iframe
under the sentinel id `__vitest_all__`) or isolated mode (one iframe per
file, created strictly sequentially).

External side effects (RPC calls, channel acknowledgements, DOM viewport
mutation, UI notifications) are modelled as an explicit effect list; the
iframe map is modelled as an association list mirroring JS `Map`
insertion-order semantics, and the running set as a duplicate-free list
mirroring JS `Set`.
-/

/-- The sentinel identifier `ID_ALL = '__vitest_all__'` used for the single
shared iframe in non-isolated (shared) mode. -/
def ID_ALL : String := "__vitest_all__"

/-- The iframe registry: JS `Map<string, HTMLIFrameElement>` modelled as an
insertion-ordered association list; the iframe element itself is an opaque
handle token (`Nat`). -/
abbrev IframeMap := List (String × Nat)

/-- `iframes.has(id)` -/
def IframeMap.has (m : IframeMap) (id : String) : Bool :=
  m.any (fun p => p.1 == id)

/-- `iframes.get(id)` -/
def IframeMap.get (m : IframeMap) (id : String) : Option Nat :=
  match m.find? (fun p => p.1 == id) with
  | some p => some p.2
  | none => none

/-- `iframes.delete(id)`: removes the entry for `id` (a no-op when absent). -/
def IframeMap.delete (m : IframeMap) (id : String) : IframeMap :=
  m.filter (fun p => p.1 != id)

/-- `iframes.set(id, v)`: JS `Map.set` updates an existing entry in place,
otherwise appends at the end. -/
def IframeMap.set (m : IframeMap) (id : String) (v : Nat) : IframeMap :=
  if m.any (fun p => p.1 == id) then
    m.map (fun p => if p.1 == id then (id, v) else p)
  else
    m ++ [(id, v)]

/-- Number of registry entries registered under identifier `id`. -/
def countKey (m : IframeMap) (id : String) : Nat :=
  (m.filter (fun p => p.1 == id)).length

/-- `createIframe(container, file)`: if the registry already has a handle for
`file`, remove it (DOM removal plus `iframes.delete`), then build a fresh
iframe, insert it under `file` and return it.  The fresh DOM element is the
token `handle`. -/
def createIframe (m : IframeMap) (file : String) (handle : Nat) : IframeMap × Nat :=
  let m' := if m.has file then m.delete file else m
  (m'.set file handle, handle)

/-- Observable external side effects of the orchestrator: channel
acknowledgements, RPC calls to the host, viewport application and UI
notifications. -/
inductive Effect where
  | postViewportFail (id : String)
  | postViewportDone (id : String)
  | applyViewport (id : String) (width height : Nat)
  | unhandledError (error : String) (errorType : String)
  | rpcDoneFlush
  | finishBrowserTests
  | runTestsFinish
  | setCurrentFileId (file : String)
deriving DecidableEq

/-- The `done(testFinished = true)` finalizer:
`try { await rpcDone(); await client.rpc.finishBrowserTests() } finally
{ testFinished && getUiAPI()?.runTestsFinish() }`.
`ui` says whether a UI adapter is present, `rpcOk` / `finOk` whether the two
awaited flush steps succeed.  Returns the effects that actually happened and
whether the call rethrows after its `finally` block. -/
def done (ui rpcOk finOk testFinished : Bool) : List Effect × Bool :=
  let tryPart : List Effect × Bool :=
    if rpcOk then
      if finOk then ([Effect.rpcDoneFlush, Effect.finishBrowserTests], false)
      else ([Effect.rpcDoneFlush], true)
    else ([], true)
  (tryPart.1 ++ (if testFinished && ui then [Effect.runTestsFinish] else []),
   tryPart.2)

/-- Orchestrator module state touched by the channel listener: the iframe
registry and the running set. -/
structure OrchState where
  iframes : IframeMap
  runningFiles : List String
deriving DecidableEq

/-- Channel events received by the orchestrator listener.  `viewportAck`
models the `viewport:done` / `viewport:fail` tags and `other` any
unrecognized tag; in the source both fall into the `switch` default. -/
inductive ChannelEvent where
  | done (filenames : List String) (id : String)
  | error (error : String) (errorType : String) (files : List String) (id : String)
  | viewport (width height : Nat) (id : String)
  | viewportAck (outcomeDone : Bool)
  | other (tag : String)
deriving DecidableEq

/-- Result of one listener invocation: the updated state, the effects emitted
(in order), and one entry per call of the `done` finalizer recording its
`testFinished` argument. -/
structure ListenerResult where
  state : OrchState
  effects : List Effect
  finalizes : List Bool
deriving DecidableEq

/-- The channel message listener registered in the `open` handler: the
`switch (e.data.type)` over `viewport` / `done` / `error` / default. -/
def handleEvent (ui rpcOk finOk : Bool) (s : OrchState) (e : ChannelEvent) :
    ListenerResult :=
  match e with
  | .viewport width height id =>
    match s.iframes.get id with
    | none =>
      { state := s
        effects := [Effect.postViewportFail id,
          Effect.unhandledError (String.append "Cannot find iframe with id " id)
            "Teardown Error"]
        finalizes := [] }
    | some _ =>
      { state := s
        effects := [Effect.applyViewport id width height,
          Effect.postViewportDone id]
        finalizes := [] }
  | .done filenames id =>
    let running :=
      filenames.foldl (fun acc f => acc.filter (fun g => g != f)) s.runningFiles
    if running.isEmpty then
      let uiSelect :=
        if ui then
          if 1 < filenames.length then
            [Effect.setCurrentFileId (filenames.getLastD "")]
          else []
        else []
      { state := { s with runningFiles := running }
        effects := uiSelect ++ (done ui rpcOk finOk true).1
        finalizes := [true] }
    else
      { state := { iframes := s.iframes.delete id, runningFiles := running }
        effects := []
        finalizes := [] }
  | .error err errorType _files id =>
    let ifr := s.iframes.delete id
    let running :=
      if id == ID_ALL then [] else s.runningFiles.filter (fun g => g != id)
    if running.isEmpty then
      { state := { iframes := ifr, runningFiles := running }
        effects := Effect.unhandledError err errorType :: (done ui rpcOk finOk true).1
        finalizes := [true] }
    else
      { state := { iframes := ifr, runningFiles := running }
        effects := [Effect.unhandledError err errorType]
        finalizes := [] }
  | .viewportAck _ =>
    { state := s
      effects := Effect.unhandledError "Unexpected event" "Unexpected Event"
        :: (done ui rpcOk finOk false).1
      finalizes := [false] }
  | .other _ =>
    { state := s
      effects := Effect.unhandledError "Unexpected event" "Unexpected Event"
        :: (done ui rpcOk finOk false).1
      finalizes := [false] }

/-! ## Run dispatcher: isolated mode

`createTesters` in isolated mode (`config.isolate !== false`) loops over the
file list; for each file it creates a fresh iframe, applies the viewport, and
then suspends on a one-shot channel listener that resolves at the next event
whose type is `done` or `error`.  We model the channel as an incoming event
stream and the dispatcher as a trace generator interleaving `create` actions
with the events it observes while waiting. -/

/-- The type tag of a channel event, as inspected by the one-shot listener
inside the isolated-mode loop. -/
inductive SbEventType where
  | done
  | error
  | viewport
  | otherTag
deriving DecidableEq

/-- The resolution test of the one-shot listener:
`e.data.type === 'done' || e.data.type === 'error'`. -/
def isDoneOrError : SbEventType → Bool
  | .done => true
  | .error => true
  | _ => false

/-- One item of the dispatcher trace: a sandbox (iframe) creation, or a
channel event observed while the dispatcher was suspended. -/
inductive TraceItem where
  | create (file : String)
  | observe (e : SbEventType)
deriving DecidableEq

/-- Consume the event stream up to and including the first `done`/`error`
event; `none` when the stream holds no such event (the dispatcher then stays
suspended forever). -/
def splitAtDoneOrError : List SbEventType → Option (List SbEventType × List SbEventType)
  | [] => none
  | e :: rest =>
    if isDoneOrError e then some ([e], rest)
    else
      match splitAtDoneOrError rest with
      | none => none
      | some (p, r) => some (e :: p, r)

/-- The isolated-mode loop of `createTesters` as a trace generator: for each
file in order, emit its `create`, then observe events until the first
`done`/`error` resolves the wait; when the stream runs dry before that, the
loop is suspended forever and no further sandbox is created. -/
def isolatedRun : List String → List SbEventType → List TraceItem
  | [], _ => []
  | f :: fs, evs =>
    TraceItem.create f ::
      match splitAtDoneOrError evs with
      | none => evs.map TraceItem.observe
      | some (p, r) => p.map TraceItem.observe ++ isolatedRun fs r

/-- The files created by a trace, in order. -/
def createsOf (t : List TraceItem) : List String :=
  t.filterMap (fun x => match x with | .create f => some f | .observe _ => none)

/-! ## Run lifecycle controller: request coalescing

`getBrowserState().createTesters = async (files) => { await promiseTesters;
promiseTesters = createTesters(files).finally(() => { promiseTesters =
undefined }); await promiseTesters }`.

We model the scenario of the claim — one run in flight (run 1) and a second
request issued while it is in flight (run 2) — as a small-step transition
system.  The second request has already executed `await promiseTesters`,
capturing run 1's chained promise; by promise semantics it can resume (and
start its own `createTesters` pass) only once that promise has settled, which
is the guard of `r2start`.  Side effects performed by either pass are recorded
in an append-only log tagged by the pass that performed them. -/

/-- Phase of the in-flight first run. -/
inductive RunPhase where
  | running
  | settled
deriving DecidableEq

/-- Phase of the second, coalesced request. -/
inductive ReqPhase where
  | waiting
  | running
  | settled
deriving DecidableEq

/-- State of the coalescing wrapper with one run in flight and one queued
request: the `promiseTesters` variable (which run's chained promise it holds,
if any), the two phases, and the log of side effects `(pass, tag)`. -/
structure WrapperState where
  promiseTesters : Option Nat
  p1 : RunPhase
  p2 : ReqPhase
  log : List (Nat × Nat)
deriving DecidableEq

/-- Initial state of the claim's scenario: run 1 is in flight
(`promiseTesters` holds its chained promise) and request 2 has been issued
and is awaiting that promise. -/
def initState : WrapperState :=
  { promiseTesters := some 1, p1 := .running, p2 := .waiting, log := [] }

/-- Small-step semantics of the wrapper.  `r1settle` is run 1's `finally`
callback resetting `promiseTesters`; `r2start` is request 2 resuming from
`await promiseTesters` — enabled only once the promise it awaits (run 1's)
has settled — and installing its own pass as the new `promiseTesters`. -/
inductive WrapperStep : WrapperState → WrapperState → Prop where
  | r1effect (s : WrapperState) (k : Nat) : s.p1 = .running →
      WrapperStep s { s with log := s.log ++ [(1, k)] }
  | r1settle (s : WrapperState) : s.p1 = .running →
      WrapperStep s { s with p1 := .settled, promiseTesters := none }
  | r2start (s : WrapperState) : s.p2 = .waiting → s.p1 = .settled →
      WrapperStep s { s with p2 := .running, promiseTesters := some 2 }
  | r2effect (s : WrapperState) (k : Nat) : s.p2 = .running →
      WrapperStep s { s with log := s.log ++ [(2, k)] }
  | r2settle (s : WrapperState) : s.p2 = .running →
      WrapperStep s { s with p2 := .settled, promiseTesters := none }

/-- Reachability from the scenario's initial state. -/
def WrapperReachable (s : WrapperState) : Prop :=
  Relation.ReflTransGen WrapperStep initState s

/-! ## Helper lemmas about the registry and the running set -/

lemma delete_not_has (m : IframeMap) (id : String) :
    (m.delete id).has id = false := by
  simp only [IframeMap.delete, IframeMap.has]
  rw [List.any_eq_false]
  intro p hp
  rw [List.mem_filter] at hp
  simpa using hp.2

lemma delete_eq_self_of_not_has (m : IframeMap) (id : String)
    (hh : m.has id = false) : m.delete id = m := by
  rw [IframeMap.delete, List.filter_eq_self]
  intro p hp
  rw [IframeMap.has, List.any_eq_false] at hh
  simpa using hh p hp

lemma createIframe_fst (m : IframeMap) (file : String) (v : Nat) :
    (createIframe m file v).1 = m.delete file ++ [(file, v)] := by
  unfold createIframe IframeMap.set
  by_cases hh : m.has file = true
  · have hd := delete_not_has m file
    rw [IframeMap.has] at hd
    simp [hh, hd]
  · have hf : m.has file = false := by simpa using hh
    have hself := delete_eq_self_of_not_has m file hf
    rw [IframeMap.has] at hf
    simp [hh, hf, hself]

lemma countKey_append (a b : IframeMap) (j : String) :
    countKey (a ++ b) j = countKey a j + countKey b j := by
  simp [countKey, List.filter_append]

lemma countKey_delete_self (m : IframeMap) (id : String) :
    countKey (m.delete id) id = 0 := by
  simp only [countKey, IframeMap.delete, List.length_eq_zero]
  rw [List.filter_eq_nil_iff]
  intro p hp
  rw [List.mem_filter] at hp
  simpa using hp.2

lemma countKey_delete_le (m : IframeMap) (id j : String) :
    countKey (m.delete id) j ≤ countKey m j := by
  have hs : List.Sublist ((m.delete id).filter (fun p => p.1 == j))
      (m.filter (fun p => p.1 == j)) :=
    List.Sublist.filter _ (List.filter_sublist m)
  exact hs.length_le

lemma get_append (a b : IframeMap) (j : String) :
    IframeMap.get (a ++ b) j = (IframeMap.get a j).or (IframeMap.get b j) := by
  induction a with
  | nil => simp [IframeMap.get]
  | cons p t ih =>
    by_cases hp : (p.1 == j) = true
    · simp [IframeMap.get, List.find?_cons_of_pos, hp]
    · have hp' : (p.1 == j) = false := by simpa using hp
      simp only [List.cons_append, IframeMap.get, List.find?_cons_of_neg, hp',
        Bool.false_eq_true, not_false_iff] at *
      exact ih

lemma get_delete_self (m : IframeMap) (id : String) :
    (m.delete id).get id = none := by
  have hf : (m.filter (fun p => p.1 != id)).find? (fun p => p.1 == id) = none := by
    rw [List.find?_eq_none]
    intro p hp
    rw [List.mem_filter] at hp
    simpa using hp.2
  simp [IframeMap.get, IframeMap.delete, hf]

lemma get_delete_ne (m : IframeMap) (id j : String) (hne : j ≠ id) :
    (m.delete id).get j = m.get j := by
  induction m with
  | nil => rfl
  | cons p t ih =>
    by_cases hpi : (p.1 != id) = true
    · by_cases hpj : (p.1 == j) = true
      · simp [IframeMap.delete, IframeMap.get, List.filter_cons, hpi,
          List.find?_cons_of_pos, hpj]
      · have hpj' : (p.1 == j) = false := by simpa using hpj
        simp only [IframeMap.delete, List.filter_cons, hpi, if_true,
          IframeMap.get, List.find?_cons_of_neg, hpj', Bool.false_eq_true,
          not_false_iff] at *
        exact ih
    · have hpid : p.1 = id := by simpa using hpi
      have hpj' : (p.1 == j) = false := by
        simp [hpid]
        exact fun hc => hne hc.symm
      simp only [IframeMap.delete, List.filter_cons, hpi, if_false,
        IframeMap.get, List.find?_cons_of_neg, hpj', Bool.false_eq_true,
        not_false_iff] at *
      exact ih

lemma mem_foldl_filter (l : List String) (acc : List String) (f : String) :
    f ∈ l.foldl (fun a x => a.filter (fun g => g != x)) acc ↔
      f ∈ acc ∧ f ∉ l := by
  induction l generalizing acc with
  | nil => simp
  | cons x t ih =>
    rw [List.foldl_cons, ih]
    simp only [List.mem_filter, bne_iff_ne, List.mem_cons, not_or]
    tauto

lemma handleEvent_done_nonempty (ui rpcOk finOk : Bool) (s : OrchState)
    (filenames : List String) (id : String)
    (h : (filenames.foldl (fun acc f => acc.filter (fun g => g != f))
        s.runningFiles).isEmpty = false) :
    handleEvent ui rpcOk finOk s (ChannelEvent.done filenames id) =
      ⟨⟨s.iframes.delete id,
        filenames.foldl (fun acc f => acc.filter (fun g => g != f)) s.runningFiles⟩,
       [], []⟩ := by
  simp [handleEvent, h]

lemma handleEvent_done_empty (ui rpcOk finOk : Bool) (s : OrchState)
    (filenames : List String) (id : String)
    (h : (filenames.foldl (fun acc f => acc.filter (fun g => g != f))
        s.runningFiles).isEmpty = true) :
    handleEvent ui rpcOk finOk s (ChannelEvent.done filenames id) =
      ⟨⟨s.iframes,
        filenames.foldl (fun acc f => acc.filter (fun g => g != f)) s.runningFiles⟩,
       (if ui then
          if 1 < filenames.length then
            [Effect.setCurrentFileId (filenames.getLastD "")]
          else []
        else []) ++ (done ui rpcOk finOk true).1,
       [true]⟩ := by
  simp [handleEvent, h]

/-- C9: `createIframe` first removes any pre-existing handle registered under
the identifier, then inserts and returns the new handle; afterwards exactly
one live handle exists for that identifier, the at-most-one-handle-per-
identifier invariant is preserved by `create` as well as by the other
registry operations (`delete`, and `clear` which yields the empty registry),
and looking the identifier up yields the returned handle. -/
theorem createIframe_unique_handle (m : IframeMap) (file : String) (v : Nat)
    (hm : ∀ j, countKey m j ≤ 1) :
    countKey (createIframe m file v).1 file = 1 ∧
    (∀ j, countKey (createIframe m file v).1 j ≤ 1) ∧
    (createIframe m file v).2 = v ∧
    IframeMap.get (createIframe m file v).1 file = some v ∧
    (∀ i j, countKey (IframeMap.delete m i) j ≤ 1) ∧
    (∀ j, countKey ([] : IframeMap) j = 0) := by
  have hfst := createIframe_fst m file v
  refine ⟨?_, ?_, rfl, ?_, ?_, fun _ => rfl⟩
  · rw [hfst, countKey_append, countKey_delete_self]
    simp [countKey]
  · intro j
    rw [hfst, countKey_append]
    by_cases hj : j = file
    · subst hj
      rw [countKey_delete_self]
      simp [countKey]
    · have hb : ((file : String) == j) = false := by
        simp
        exact fun hc => hj hc.symm
      have h0 : countKey [(file, v)] j = 0 := by simp [countKey, hb]
      rw [h0]
      exact le_trans (by simpa using countKey_delete_le m file j) (hm j)
  · rw [hfst, get_append, get_delete_self]
    simp [IframeMap.get]
  · intro i j
    exact le_trans (countKey_delete_le m i j) (hm j)

/-- Witness for C9 at the empty registry, file `"a"`, handle `7`. -/
theorem createIframe_unique_handle_ck :
    (∀ j, countKey ([] : IframeMap) j ≤ 1) ∧
    (countKey (createIframe ([] : IframeMap) "a" 7).1 "a" = 1 ∧
     (∀ j, countKey (createIframe ([] : IframeMap) "a" 7).1 j ≤ 1) ∧
     (createIframe ([] : IframeMap) "a" 7).2 = 7 ∧
     IframeMap.get (createIframe ([] : IframeMap) "a" 7).1 "a" = some 7 ∧
     (∀ i j, countKey (IframeMap.delete ([] : IframeMap) i) j ≤ 1) ∧
     (∀ j, countKey ([] : IframeMap) j = 0)) :=
  ⟨fun _ => Nat.zero_le 1,
   createIframe_unique_handle ([] : IframeMap) "a" 7 (fun _ => Nat.zero_le 1)⟩

/-- C3 counterexample: a `done` event carrying the sentinel id `ID_ALL` that
does **not** empty the running set removes the shared `ALL` handle from the
registry — the listener's else-branch deletes `iframes[e.data.id]`
unconditionally, with no guard against the sentinel. -/
theorem done_event_removes_all_handle :
    IframeMap.get ([(ID_ALL, 0)] : IframeMap) ID_ALL = some 0 ∧
    (handleEvent true true true ⟨[(ID_ALL, 0)], ["a", "b"]⟩
        (ChannelEvent.done ["a"] ID_ALL)).state.runningFiles = ["b"] ∧
    IframeMap.get (handleEvent true true true ⟨[(ID_ALL, 0)], ["a", "b"]⟩
        (ChannelEvent.done ["a"] ID_ALL)).state.iframes ID_ALL = none := by
  refine ⟨rfl, rfl, rfl⟩

/-- C3 (amended): for every `done` event that does not empty the running
set, exactly the registry handle under the **event's own id** is removed and
every other handle survives; in particular the shared `ALL` handle survives
provided the event's id is not the sentinel itself. -/
theorem done_nonempty_removes_only_event_id (ui rpcOk finOk : Bool)
    (s : OrchState) (filenames : List String) (id : String)
    (hne : (handleEvent ui rpcOk finOk s
        (ChannelEvent.done filenames id)).state.runningFiles.isEmpty = false) :
    IframeMap.get (handleEvent ui rpcOk finOk s
        (ChannelEvent.done filenames id)).state.iframes id = none ∧
    (∀ j, j ≠ id →
      IframeMap.get (handleEvent ui rpcOk finOk s
          (ChannelEvent.done filenames id)).state.iframes j =
        s.iframes.get j) ∧
    (id ≠ ID_ALL →
      IframeMap.get (handleEvent ui rpcOk finOk s
          (ChannelEvent.done filenames id)).state.iframes ID_ALL =
        s.iframes.get ID_ALL) := by
  have hrun : (filenames.foldl (fun acc f => acc.filter (fun g => g != f))
      s.runningFiles).isEmpty = false := by
    by_cases hc : (filenames.foldl (fun acc f => acc.filter (fun g => g != f))
        s.runningFiles).isEmpty = true
    · rw [handleEvent_done_empty ui rpcOk finOk s filenames id hc] at hne
      simp only at hne
      rw [hc] at hne
      exact absurd hne (by simp)
    · simpa using hc
  rw [handleEvent_done_nonempty ui rpcOk finOk s filenames id hrun]
  refine ⟨get_delete_self s.iframes id, ?_, ?_⟩
  · intro j hj
    exact get_delete_ne s.iframes id j hj
  · intro hid
    exact get_delete_ne s.iframes id ID_ALL (Ne.symm hid)

/-- Witness for C3's amended theorem: state with handles for `ID_ALL` and
`"a"`, a `done` event for `"a"` leaving `"b"` running. -/
theorem done_nonempty_removes_only_event_id_ck :
    (handleEvent true true true ⟨[(ID_ALL, 0), ("a", 1)], ["a", "b"]⟩
        (ChannelEvent.done ["a"] "a")).state.runningFiles.isEmpty = false ∧
    (IframeMap.get (handleEvent true true true
        ⟨[(ID_ALL, 0), ("a", 1)], ["a", "b"]⟩
        (ChannelEvent.done ["a"] "a")).state.iframes "a" = none ∧
    (∀ j, j ≠ "a" →
      IframeMap.get (handleEvent true true true
          ⟨[(ID_ALL, 0), ("a", 1)], ["a", "b"]⟩
          (ChannelEvent.done ["a"] "a")).state.iframes j =
        IframeMap.get ([(ID_ALL, 0), ("a", 1)] : IframeMap) j) ∧
    ("a" ≠ ID_ALL →
      IframeMap.get (handleEvent true true true
          ⟨[(ID_ALL, 0), ("a", 1)], ["a", "b"]⟩
          (ChannelEvent.done ["a"] "a")).state.iframes ID_ALL =
        IframeMap.get ([(ID_ALL, 0), ("a", 1)] : IframeMap) ID_ALL)) :=
  ⟨rfl, done_nonempty_removes_only_event_id true true true
    ⟨[(ID_ALL, 0), ("a", 1)], ["a", "b"]⟩ ["a"] "a" rfl⟩

lemma handleEvent_error_state (ui rpcOk finOk : Bool) (s : OrchState)
    (err etype : String) (files : List String) (id : String)
    (hb : (id == ID_ALL) = false) :
    (handleEvent ui rpcOk finOk s (ChannelEvent.error err etype files id)).state =
      ⟨s.iframes.delete id, s.runningFiles.filter (fun g => g != id)⟩ := by
  by_cases hre : (s.runningFiles.filter (fun g => g != id)).isEmpty = true
  · simp [handleEvent, hb, hre]
  · simp only [Bool.not_eq_true] at hre
    simp [handleEvent, hb, hre]

/-- C4: a `done` event removes exactly its named filenames from the running
set (removal of a non-member being a no-op), and the `done` finalizer is
invoked exactly once, exactly when the running set becomes empty; on the
spec's concrete scenario, `done ["a"]` on `{a, b}` leaves `{b}` with no
finalize and a subsequent `done ["b"]` empties the set with one finalize. -/
theorem done_event_marks_and_finalizes (ui rpcOk finOk : Bool) (s : OrchState)
    (filenames : List String) (id : String) :
    (∀ f, f ∈ (handleEvent ui rpcOk finOk s
        (ChannelEvent.done filenames id)).state.runningFiles ↔
      (f ∈ s.runningFiles ∧ f ∉ filenames)) ∧
    ((handleEvent ui rpcOk finOk s (ChannelEvent.done filenames id)).finalizes.length =
      if (handleEvent ui rpcOk finOk s
          (ChannelEvent.done filenames id)).state.runningFiles.isEmpty
      then 1 else 0) ∧
    (handleEvent true true true ⟨[], ["a", "b"]⟩
        (ChannelEvent.done ["a"] "a")).state.runningFiles = ["b"] ∧
    (handleEvent true true true ⟨[], ["a", "b"]⟩
        (ChannelEvent.done ["a"] "a")).finalizes = [] ∧
    (handleEvent true true true ⟨[], ["b"]⟩
        (ChannelEvent.done ["b"] "b")).state.runningFiles = [] ∧
    (handleEvent true true true ⟨[], ["b"]⟩
        (ChannelEvent.done ["b"] "b")).finalizes = [true] := by
  refine ⟨?_, ?_, rfl, rfl, rfl, rfl⟩
  · intro f
    by_cases hre : (filenames.foldl (fun acc f => acc.filter (fun g => g != f))
        s.runningFiles).isEmpty = true
    · rw [handleEvent_done_empty ui rpcOk finOk s filenames id hre]
      exact mem_foldl_filter filenames s.runningFiles f
    · simp only [Bool.not_eq_true] at hre
      rw [handleEvent_done_nonempty ui rpcOk finOk s filenames id hre]
      exact mem_foldl_filter filenames s.runningFiles f
  · by_cases hre : (filenames.foldl (fun acc f => acc.filter (fun g => g != f))
        s.runningFiles).isEmpty = true
    · rw [handleEvent_done_empty ui rpcOk finOk s filenames id hre]
      simp [hre]
    · simp only [Bool.not_eq_true] at hre
      rw [handleEvent_done_nonempty ui rpcOk finOk s filenames id hre]
      simp [hre]

/-- Witness for C4 on the spec's scenario (running set `{a, b}`, event
`done ["a"]` from iframe `"a"`). -/
theorem done_event_marks_and_finalizes_ck :
    (∀ f, f ∈ (handleEvent true true true ⟨[], ["a", "b"]⟩
        (ChannelEvent.done ["a"] "a")).state.runningFiles ↔
      (f ∈ (["a", "b"] : List String) ∧ f ∉ (["a"] : List String))) ∧
    ((handleEvent true true true ⟨[], ["a", "b"]⟩
        (ChannelEvent.done ["a"] "a")).finalizes.length =
      if (handleEvent true true true ⟨[], ["a", "b"]⟩
          (ChannelEvent.done ["a"] "a")).state.runningFiles.isEmpty
      then 1 else 0) ∧
    (handleEvent true true true ⟨[], ["a", "b"]⟩
        (ChannelEvent.done ["a"] "a")).state.runningFiles = ["b"] ∧
    (handleEvent true true true ⟨[], ["a", "b"]⟩
        (ChannelEvent.done ["a"] "a")).finalizes = [] ∧
    (handleEvent true true true ⟨[], ["b"]⟩
        (ChannelEvent.done ["b"] "b")).state.runningFiles = [] ∧
    (handleEvent true true true ⟨[], ["b"]⟩
        (ChannelEvent.done ["b"] "b")).finalizes = [true] :=
  done_event_marks_and_finalizes true true true ⟨[], ["a", "b"]⟩ ["a"] "a"

/-- C5: an `error` event whose id is the sentinel `ID_ALL` clears the running
set entirely, reports the error upstream via the unhandled-error RPC, and
triggers the finalizer; for any other id only that identifier is removed and
the finalizer runs exactly when the set is then empty. -/
theorem error_event_all_and_single (ui rpcOk finOk : Bool) (s : OrchState)
    (err etype : String) (files : List String) :
    ((handleEvent ui rpcOk finOk s
        (ChannelEvent.error err etype files ID_ALL)).state.runningFiles = [] ∧
     Effect.unhandledError err etype ∈ (handleEvent ui rpcOk finOk s
        (ChannelEvent.error err etype files ID_ALL)).effects ∧
     (handleEvent ui rpcOk finOk s
        (ChannelEvent.error err etype files ID_ALL)).finalizes = [true]) ∧
    (∀ id, id ≠ ID_ALL →
      (∀ f, f ∈ (handleEvent ui rpcOk finOk s
          (ChannelEvent.error err etype files id)).state.runningFiles ↔
        (f ∈ s.runningFiles ∧ f ≠ id)) ∧
      Effect.unhandledError err etype ∈ (handleEvent ui rpcOk finOk s
          (ChannelEvent.error err etype files id)).effects ∧
      ((handleEvent ui rpcOk finOk s
          (ChannelEvent.error err etype files id)).finalizes =
        if (handleEvent ui rpcOk finOk s
            (ChannelEvent.error err etype files id)).state.runningFiles.isEmpty
        then [true] else [])) := by
  constructor
  · refine ⟨?_, ?_, ?_⟩ <;> simp [handleEvent]
  · intro id hid
    have hb : (id == ID_ALL) = false := by simpa using hid
    have hst := handleEvent_error_state ui rpcOk finOk s err etype files id hb
    by_cases hre : (s.runningFiles.filter (fun g => g != id)).isEmpty = true
    · refine ⟨?_, ?_, ?_⟩
      · intro f
        rw [hst]
        simp [List.mem_filter]
      · simp [handleEvent, hb, hre]
      · rw [hst]
        simp [handleEvent, hb, hre]
    · simp only [Bool.not_eq_true] at hre
      refine ⟨?_, ?_, ?_⟩
      · intro f
        rw [hst]
        simp [List.mem_filter]
      · simp [handleEvent, hb, hre]
      · rw [hst]
        simp [handleEvent, hb, hre]

/-- Witness for C5 on running set `{x, y, z}` (sentinel case) and on id
`"x"` (single case, leaving `{y, z}` running with no finalize). -/
theorem error_event_all_and_single_ck :
    (((handleEvent true true true ⟨[], ["x", "y", "z"]⟩
        (ChannelEvent.error "boom" "Unknown Error" [] ID_ALL)).state.runningFiles = [] ∧
      Effect.unhandledError "boom" "Unknown Error" ∈ (handleEvent true true true
          ⟨[], ["x", "y", "z"]⟩
          (ChannelEvent.error "boom" "Unknown Error" [] ID_ALL)).effects ∧
      (handleEvent true true true ⟨[], ["x", "y", "z"]⟩
          (ChannelEvent.error "boom" "Unknown Error" [] ID_ALL)).finalizes = [true]) ∧
     (∀ id, id ≠ ID_ALL →
       (∀ f, f ∈ (handleEvent true true true ⟨[], ["x", "y", "z"]⟩
           (ChannelEvent.error "boom" "Unknown Error" [] id)).state.runningFiles ↔
         (f ∈ (["x", "y", "z"] : List String) ∧ f ≠ id)) ∧
       Effect.unhandledError "boom" "Unknown Error" ∈ (handleEvent true true true
           ⟨[], ["x", "y", "z"]⟩
           (ChannelEvent.error "boom" "Unknown Error" [] id)).effects ∧
       ((handleEvent true true true ⟨[], ["x", "y", "z"]⟩
           (ChannelEvent.error "boom" "Unknown Error" [] id)).finalizes =
         if (handleEvent true true true ⟨[], ["x", "y", "z"]⟩
             (ChannelEvent.error "boom" "Unknown Error" [] id)).state.runningFiles.isEmpty
         then [true] else []))) ∧
    ("x" : String) ≠ ID_ALL :=
  ⟨error_event_all_and_single true true true ⟨[], ["x", "y", "z"]⟩
      "boom" "Unknown Error" [],
   by decide⟩

/-- C10: an `error` event with a non-sentinel id removes at most the registry
entry for that id and at most that one member of the running set; every other
registry entry and running-set member is untouched. -/
theorem error_event_frame (ui rpcOk finOk : Bool) (s : OrchState)
    (err etype : String) (files : List String) (id : String)
    (hid : id ≠ ID_ALL) :
    IframeMap.get (handleEvent ui rpcOk finOk s
        (ChannelEvent.error err etype files id)).state.iframes id = none ∧
    (∀ j, j ≠ id →
      IframeMap.get (handleEvent ui rpcOk finOk s
          (ChannelEvent.error err etype files id)).state.iframes j =
        s.iframes.get j) ∧
    id ∉ (handleEvent ui rpcOk finOk s
        (ChannelEvent.error err etype files id)).state.runningFiles ∧
    (∀ f, f ≠ id →
      (f ∈ (handleEvent ui rpcOk finOk s
          (ChannelEvent.error err etype files id)).state.runningFiles ↔
        f ∈ s.runningFiles)) := by
  have hb : (id == ID_ALL) = false := by simpa using hid
  rw [handleEvent_error_state ui rpcOk finOk s err etype files id hb]
  refine ⟨get_delete_self s.iframes id, ?_, ?_, ?_⟩
  · intro j hj
    exact get_delete_ne s.iframes id j hj
  · simp [List.mem_filter]
  · intro f hf
    simp [List.mem_filter, hf]

/-- Witness for C10: error from iframe `"a"` on registry
`{ALL ↦ 0, a ↦ 1, b ↦ 2}` and running set `{a, b}`. -/
theorem error_event_frame_ck :
    ("a" : String) ≠ ID_ALL ∧
    (IframeMap.get (handleEvent true true true
        ⟨[(ID_ALL, 0), ("a", 1), ("b", 2)], ["a", "b"]⟩
        (ChannelEvent.error "boom" "Unknown Error" [] "a")).state.iframes "a" = none ∧
     (∀ j, j ≠ "a" →
       IframeMap.get (handleEvent true true true
           ⟨[(ID_ALL, 0), ("a", 1), ("b", 2)], ["a", "b"]⟩
           (ChannelEvent.error "boom" "Unknown Error" [] "a")).state.iframes j =
         IframeMap.get ([(ID_ALL, 0), ("a", 1), ("b", 2)] : IframeMap) j) ∧
     "a" ∉ (handleEvent true true true
         ⟨[(ID_ALL, 0), ("a", 1), ("b", 2)], ["a", "b"]⟩
         (ChannelEvent.error "boom" "Unknown Error" [] "a")).state.runningFiles ∧
     (∀ f, f ≠ "a" →
       (f ∈ (handleEvent true true true
           ⟨[(ID_ALL, 0), ("a", 1), ("b", 2)], ["a", "b"]⟩
           (ChannelEvent.error "boom" "Unknown Error" [] "a")).state.runningFiles ↔
         f ∈ (["a", "b"] : List String)))) :=
  ⟨by decide,
   error_event_frame true true true ⟨[(ID_ALL, 0), ("a", 1), ("b", 2)], ["a", "b"]⟩
     "boom" "Unknown Error" [] "a" (by decide)⟩

/-- C6: the `done` finalizer delivers the UI run-finished notification
(`runTestsFinish`, the `finally` block) even when a flush step — the RPC
drain or the `finishBrowserTests` call — throws; a flush failure rethrows
only after the UI has been released. -/
theorem done_releases_ui (rpcOk finOk : Bool) :
    Effect.runTestsFinish ∈ (done true rpcOk finOk true).1 ∧
    ((rpcOk = false ∨ finOk = false) → (done true rpcOk finOk true).2 = true) := by
  cases rpcOk <;> cases finOk <;> simp [done]

/-- Witness for C6 with the RPC drain throwing. -/
theorem done_releases_ui_ck :
    Effect.runTestsFinish ∈ (done true false true true).1 ∧
    ((false = false ∨ true = false) → (done true false true true).2 = true) :=
  done_releases_ui false true

/-- C7: an event of unrecognized type produces exactly one `Unexpected Event`
upstream report and exactly one finalize call in degraded mode: the RPC state
is flushed and the host told that browser tests finished, the state is left
untouched, and the UI finish notification is skipped for every flag
combination. -/
theorem unexpected_event_report (s : OrchState) (tag : String) :
    (handleEvent true true true s (ChannelEvent.other tag)).state = s ∧
    (handleEvent true true true s (ChannelEvent.other tag)).effects =
      [Effect.unhandledError "Unexpected event" "Unexpected Event",
       Effect.rpcDoneFlush, Effect.finishBrowserTests] ∧
    (handleEvent true true true s (ChannelEvent.other tag)).finalizes = [false] ∧
    (∀ ui rpcOk finOk : Bool,
      Effect.runTestsFinish ∉
        (handleEvent ui rpcOk finOk s (ChannelEvent.other tag)).effects) := by
  refine ⟨rfl, rfl, rfl, ?_⟩
  intro ui rpcOk finOk
  cases rpcOk <;> cases finOk <;> simp [handleEvent, done]

/-- Witness for C7 at an unknown tag. -/
theorem unexpected_event_report_ck :
    (handleEvent true true true ⟨[], ["a"]⟩ (ChannelEvent.other "custom")).state =
      (⟨[], ["a"]⟩ : OrchState) ∧
    (handleEvent true true true ⟨[], ["a"]⟩ (ChannelEvent.other "custom")).effects =
      [Effect.unhandledError "Unexpected event" "Unexpected Event",
       Effect.rpcDoneFlush, Effect.finishBrowserTests] ∧
    (handleEvent true true true ⟨[], ["a"]⟩ (ChannelEvent.other "custom")).finalizes =
      [false] ∧
    (∀ ui rpcOk finOk : Bool,
      Effect.runTestsFinish ∉
        (handleEvent ui rpcOk finOk ⟨[], ["a"]⟩
          (ChannelEvent.other "custom")).effects) :=
  unexpected_event_report ⟨[], ["a"]⟩ "custom"

/-- C8: a `viewport` event resolving to no live handle posts exactly one
`viewport:fail` acknowledgement and one upstream error report, leaving the
state (registry and running set) unmutated; a resolving id gets the resize
applied followed by exactly one `viewport:done` acknowledgement. -/
theorem viewport_event_ack (ui rpcOk finOk : Bool) (s : OrchState)
    (w h : Nat) (id : String) :
    (s.iframes.get id = none →
      (handleEvent ui rpcOk finOk s (ChannelEvent.viewport w h id)).effects =
        [Effect.postViewportFail id,
         Effect.unhandledError (String.append "Cannot find iframe with id " id)
           "Teardown Error"] ∧
      (handleEvent ui rpcOk finOk s (ChannelEvent.viewport w h id)).state = s ∧
      (handleEvent ui rpcOk finOk s (ChannelEvent.viewport w h id)).finalizes = []) ∧
    (∀ v, s.iframes.get id = some v →
      (handleEvent ui rpcOk finOk s (ChannelEvent.viewport w h id)).effects =
        [Effect.applyViewport id w h, Effect.postViewportDone id] ∧
      (handleEvent ui rpcOk finOk s (ChannelEvent.viewport w h id)).state = s ∧
      (handleEvent ui rpcOk finOk s (ChannelEvent.viewport w h id)).finalizes = []) := by
  constructor
  · intro hg
    simp [handleEvent, hg]
  · intro v hg
    simp [handleEvent, hg]

/-- Witness for C8: registry `{b ↦ 3}`, a failing lookup for `"a"` and a
successful one for `"b"`. -/
theorem viewport_event_ack_ck :
    (IframeMap.get ([("b", 3)] : IframeMap) "a" = none ∧
     (handleEvent true true true ⟨[("b", 3)], []⟩
         (ChannelEvent.viewport 800 600 "a")).effects =
       [Effect.postViewportFail "a",
        Effect.unhandledError (String.append "Cannot find iframe with id " "a")
          "Teardown Error"] ∧
     (handleEvent true true true ⟨[("b", 3)], []⟩
         (ChannelEvent.viewport 800 600 "a")).state = (⟨[("b", 3)], []⟩ : OrchState) ∧
     (handleEvent true true true ⟨[("b", 3)], []⟩
         (ChannelEvent.viewport 800 600 "a")).finalizes = []) ∧
    (IframeMap.get ([("b", 3)] : IframeMap) "b" = some 3 ∧
     (handleEvent true true true ⟨[("b", 3)], []⟩
         (ChannelEvent.viewport 800 600 "b")).effects =
       [Effect.applyViewport "b" 800 600, Effect.postViewportDone "b"] ∧
     (handleEvent true true true ⟨[("b", 3)], []⟩
         (ChannelEvent.viewport 800 600 "b")).state = (⟨[("b", 3)], []⟩ : OrchState) ∧
     (handleEvent true true true ⟨[("b", 3)], []⟩
         (ChannelEvent.viewport 800 600 "b")).finalizes = []) :=
  ⟨⟨rfl, (viewport_event_ack true true true ⟨[("b", 3)], []⟩ 800 600 "a").1 rfl⟩,
   ⟨rfl, (viewport_event_ack true true true ⟨[("b", 3)], []⟩ 800 600 "b").2 3 rfl⟩⟩

/-- Whether a trace item is a sandbox creation. -/
def isCreate : TraceItem → Bool
  | .create _ => true
  | .observe _ => false

lemma append_cons_split (c : TraceItem) (hc : isCreate c = true)
    (B D : List TraceItem) :
    ∀ (C A : List TraceItem), (∀ x ∈ C, isCreate x = false) →
      A ++ c :: B = C ++ D →
      ∃ E, A = C ++ E ∧ D = E ++ c :: B := by
  intro C
  induction C with
  | nil =>
    intro A _ heq
    exact ⟨A, rfl, heq.symm⟩
  | cons x t ih =>
    intro A hC heq
    cases A with
    | nil =>
      simp only [List.nil_append, List.cons_append] at heq
      have hx := hC x (List.mem_cons_self x t)
      injection heq with hcx _
      rw [← hcx, hc] at hx
      exact absurd hx (by simp)
    | cons y A' =>
      simp only [List.cons_append] at heq
      injection heq with hyx heq'
      obtain ⟨E, h1, h2⟩ :=
        ih A' (fun z hz => hC z (List.mem_cons_of_mem x hz)) heq'
      exact ⟨E, by rw [hyx, h1, List.cons_append], h2⟩

lemma splitAtDoneOrError_spec (evs : List SbEventType) :
    ∀ (p r : List SbEventType), splitAtDoneOrError evs = some (p, r) →
      ∃ e, e ∈ p ∧ isDoneOrError e = true := by
  induction evs with
  | nil =>
    intro p r h
    simp [splitAtDoneOrError] at h
  | cons e rest ih =>
    intro p r h
    by_cases he : isDoneOrError e = true
    · simp only [splitAtDoneOrError, he, if_true] at h
      injection h with h'
      injection h' with hp _
      exact ⟨e, by rw [← hp]; exact List.mem_singleton_self e, he⟩
    · have he' : isDoneOrError e = false := by simpa using he
      simp only [splitAtDoneOrError, he', Bool.false_eq_true, if_false] at h
      cases hs : splitAtDoneOrError rest with
      | none =>
        rw [hs] at h
        simp at h
      | some pr =>
        rw [hs] at h
        obtain ⟨p', r'⟩ := pr
        simp only [Option.some.injEq, Prod.mk.injEq] at h
        obtain ⟨e', hmem, hde⟩ := ih p' r' hs
        refine ⟨e', ?_, hde⟩
        rw [← h.1]
        exact List.mem_cons_of_mem e hmem

lemma createsOf_cons_create (f : String) (l : List TraceItem) :
    createsOf (TraceItem.create f :: l) = f :: createsOf l := rfl

lemma createsOf_append (a b : List TraceItem) :
    createsOf (a ++ b) = createsOf a ++ createsOf b := by
  simp [createsOf, List.filterMap_append]

lemma createsOf_map_observe (p : List SbEventType) :
    createsOf (p.map TraceItem.observe) = [] := by
  induction p with
  | nil => rfl
  | cons e t ih =>
    rw [List.map_cons]
    rw [show createsOf (TraceItem.observe e :: t.map TraceItem.observe) =
      createsOf (t.map TraceItem.observe) from rfl]
    exact ih

lemma createsOf_isolatedRun (files : List String) :
    ∀ evs : List SbEventType,
      ∃ n, createsOf (isolatedRun files evs) = files.take n := by
  induction files with
  | nil => exact fun _ => ⟨0, rfl⟩
  | cons f fs ih =>
    intro evs
    cases hs : splitAtDoneOrError evs with
    | none =>
      refine ⟨1, ?_⟩
      simp only [isolatedRun, hs]
      rw [createsOf_cons_create, createsOf_map_observe]
      rfl
    | some pr =>
      obtain ⟨p, r⟩ := pr
      obtain ⟨n, hn⟩ := ih r
      refine ⟨n + 1, ?_⟩
      have h1 : createsOf (isolatedRun (f :: fs) evs) =
          f :: createsOf (isolatedRun fs r) := by
        simp only [isolatedRun, hs]
        rw [createsOf_cons_create, createsOf_append, createsOf_map_observe,
          List.nil_append]
      rw [h1, hn, List.take_succ_cons]

lemma isolatedRun_separation (files : List String) :
    ∀ (evs : List SbEventType) (t₁ t₂ t₃ : List TraceItem) (a b : String),
      isolatedRun files evs =
        t₁ ++ TraceItem.create a :: (t₂ ++ TraceItem.create b :: t₃) →
      ∃ e, TraceItem.observe e ∈ t₂ ∧ isDoneOrError e = true := by
  induction files with
  | nil =>
    intro evs t₁ t₂ t₃ a b h
    simp [isolatedRun] at h
  | cons f fs ih =>
    intro evs t₁ t₂ t₃ a b h
    cases hs : splitAtDoneOrError evs with
    | none =>
      simp only [isolatedRun, hs] at h
      have hc : (createsOf (TraceItem.create f :: evs.map TraceItem.observe)).length =
          (createsOf (t₁ ++ TraceItem.create a ::
            (t₂ ++ TraceItem.create b :: t₃))).length := by
        rw [h]
      rw [createsOf_cons_create, createsOf_map_observe, createsOf_append,
        createsOf_cons_create, createsOf_append, createsOf_cons_create] at hc
      simp only [List.length_cons, List.length_append, List.length_nil] at hc
      omega
    | some pr =>
      obtain ⟨p, r⟩ := pr
      simp only [isolatedRun, hs] at h
      cases t₁ with
      | nil =>
        simp only [List.nil_append] at h
        injection h with _ h2
        obtain ⟨E, hE1, _⟩ :=
          append_cons_split (TraceItem.create b) rfl t₃ (isolatedRun fs r)
            (p.map TraceItem.observe) t₂
            (by
              intro x hx
              obtain ⟨e, _, rfl⟩ := List.mem_map.mp hx
              rfl)
            h2.symm
        obtain ⟨e, hep, hde⟩ := splitAtDoneOrError_spec evs p r hs
        refine ⟨e, ?_, hde⟩
        rw [hE1]
        exact List.mem_append_left _ (List.mem_map_of_mem _ hep)
      | cons x t₁' =>
        simp only [List.cons_append] at h
        injection h with _ h2
        obtain ⟨E, _, hE2⟩ :=
          append_cons_split (TraceItem.create a) rfl
            (t₂ ++ TraceItem.create b :: t₃) (isolatedRun fs r)
            (p.map TraceItem.observe) t₁'
            (by
              intro z hz
              obtain ⟨e, _, rfl⟩ := List.mem_map.mp hz
              rfl)
            h2.symm
        exact ih r E t₂ t₃ a b hE2

/-- C1: in isolated mode the dispatcher creates sandboxes strictly in file
list order (the created files always form a prefix of the supplied list),
and between any two sandbox creations in the trace a channel event of type
`done` or `error` is observed — the next sandbox is never created before the
previous one's done/error arrived, so no two sandbox lifetimes overlap. -/
theorem isolated_mode_sequential (files : List String) (evs : List SbEventType)
    (t₁ t₂ t₃ : List TraceItem) (a b : String)
    (hsplit : isolatedRun files evs =
      t₁ ++ TraceItem.create a :: (t₂ ++ TraceItem.create b :: t₃)) :
    (∃ e, TraceItem.observe e ∈ t₂ ∧ isDoneOrError e = true) ∧
    ∃ n, createsOf (isolatedRun files evs) = files.take n :=
  ⟨isolatedRun_separation files evs t₁ t₂ t₃ a b hsplit,
   createsOf_isolatedRun files evs⟩

/-- Witness for C1 on files `[a, b]` with two `done` events: the trace is
`create a, observe done, create b, observe done`. -/
theorem isolated_mode_sequential_ck :
    isolatedRun ["a", "b"] [SbEventType.done, SbEventType.done] =
      [] ++ TraceItem.create "a" ::
        ([TraceItem.observe SbEventType.done] ++ TraceItem.create "b" ::
          [TraceItem.observe SbEventType.done]) ∧
    ((∃ e, TraceItem.observe e ∈ [TraceItem.observe SbEventType.done] ∧
        isDoneOrError e = true) ∧
     ∃ n, createsOf (isolatedRun ["a", "b"]
        [SbEventType.done, SbEventType.done]) = ["a", "b"].take n) :=
  ⟨rfl,
   isolated_mode_sequential ["a", "b"] [SbEventType.done, SbEventType.done]
     [] [TraceItem.observe SbEventType.done]
     [TraceItem.observe SbEventType.done] "a" "b" rfl⟩

/-- Inductive invariant of the coalescing wrapper: once the second request
has left its `await`, the first run has settled, and the log splits into the
first run's effects followed by the second's, the latter non-empty only after
the first settled. -/
def WrapperInv (s : WrapperState) : Prop :=
  (s.p2 ≠ ReqPhase.waiting → s.p1 = RunPhase.settled) ∧
  ∃ l1 l2, s.log = l1 ++ l2 ∧ (∀ x ∈ l1, x.1 = 1) ∧ (∀ x ∈ l2, x.1 = 2) ∧
    (l2 ≠ [] → s.p1 = RunPhase.settled)

lemma wrapperInv_initState : WrapperInv initState := by
  constructor
  · intro h
    exact absurd rfl h
  · exact ⟨[], [], rfl, by simp, by simp, by simp⟩

lemma wrapperInv_step (s s' : WrapperState) (hstep : WrapperStep s s')
    (hinv : WrapperInv s) : WrapperInv s' := by
  obtain ⟨hp, l1, l2, hlog, h1, h2, h2p⟩ := hinv
  cases hstep with
  | r1effect k hrun =>
    have hl2 : l2 = [] := by
      by_contra hne
      have hc := (h2p hne).symm.trans hrun
      cases hc
    constructor
    · intro h
      exact hp h
    · refine ⟨l1 ++ [(1, k)], [], ?_, ?_, by simp, by simp⟩
      · show s.log ++ [(1, k)] = (l1 ++ [(1, k)]) ++ []
        rw [hlog, hl2]
        simp
      · intro x hx
        rcases List.mem_append.mp hx with hx | hx
        · exact h1 x hx
        · simp only [List.mem_singleton] at hx
          rw [hx]
  | r1settle hrun =>
    constructor
    · intro _
      rfl
    · exact ⟨l1, l2, hlog, h1, h2, fun _ => rfl⟩
  | r2start hw hs1 =>
    constructor
    · intro _
      exact hs1
    · exact ⟨l1, l2, hlog, h1, h2, fun _ => hs1⟩
  | r2effect k hrun =>
    have hp1 : s.p1 = RunPhase.settled := hp (by rw [hrun]; simp)
    constructor
    · intro _
      exact hp1
    · refine ⟨l1, l2 ++ [(2, k)], ?_, h1, ?_, fun _ => hp1⟩
      · show s.log ++ [(2, k)] = l1 ++ (l2 ++ [(2, k)])
        rw [hlog]
        simp
      · intro x hx
        rcases List.mem_append.mp hx with hx | hx
        · exact h2 x hx
        · simp only [List.mem_singleton] at hx
          rw [hx]
  | r2settle hrun =>
    have hp1 : s.p1 = RunPhase.settled := hp (by rw [hrun]; simp)
    constructor
    · intro _
      exact hp1
    · exact ⟨l1, l2, hlog, h1, h2, fun _ => hp1⟩

lemma wrapperInv_reachable (s : WrapperState) (hr : WrapperReachable s) :
    WrapperInv s := by
  induction hr with
  | refl => exact wrapperInv_initState
  | tail _ hstep ih => exact wrapperInv_step _ _ hstep ih

/-- C2: in the scenario of one run in flight and a second request issued
while it runs, in every reachable state at most one orchestration pass is
active, the second pass runs only after the first run's promise settled, and
every side effect of the first pass precedes every side effect of the second
in the log. -/
theorem single_orchestration_pass (s : WrapperState) (hr : WrapperReachable s) :
    ¬(s.p1 = RunPhase.running ∧ s.p2 = ReqPhase.running) ∧
    ((s.p2 = ReqPhase.running ∨ s.p2 = ReqPhase.settled) →
      s.p1 = RunPhase.settled) ∧
    ∃ l1 l2, s.log = l1 ++ l2 ∧ (∀ x ∈ l1, x.1 = 1) ∧ (∀ x ∈ l2, x.1 = 2) := by
  obtain ⟨hp, l1, l2, hlog, h1, h2, _⟩ := wrapperInv_reachable s hr
  refine ⟨?_, ?_, l1, l2, hlog, h1, h2⟩
  · rintro ⟨hr1, hr2⟩
    have hc := hp (by rw [hr2]; simp)
    rw [hr1] at hc
    cases hc
  · intro h
    apply hp
    rcases h with h | h <;> rw [h] <;> simp

/-- Witness for C2 at the reachable state where the first run settled and
the second pass has started. -/
theorem single_orchestration_pass_ck :
    WrapperReachable ⟨some 2, RunPhase.settled, ReqPhase.running, []⟩ ∧
    (¬((⟨some 2, RunPhase.settled, ReqPhase.running, []⟩ : WrapperState).p1 =
          RunPhase.running ∧
       (⟨some 2, RunPhase.settled, ReqPhase.running, []⟩ : WrapperState).p2 =
          ReqPhase.running) ∧
     (((⟨some 2, RunPhase.settled, ReqPhase.running, []⟩ : WrapperState).p2 =
          ReqPhase.running ∨
       (⟨some 2, RunPhase.settled, ReqPhase.running, []⟩ : WrapperState).p2 =
          ReqPhase.settled) →
       (⟨some 2, RunPhase.settled, ReqPhase.running, []⟩ : WrapperState).p1 =
          RunPhase.settled) ∧
     ∃ l1 l2, (⟨some 2, RunPhase.settled, ReqPhase.running, []⟩ : WrapperState).log =
        l1 ++ l2 ∧ (∀ x ∈ l1, x.1 = 1) ∧ (∀ x ∈ l2, x.1 = 2)) :=
  have hreach : WrapperReachable ⟨some 2, RunPhase.settled, ReqPhase.running, []⟩ :=
    Relation.ReflTransGen.tail
      (Relation.ReflTransGen.tail Relation.ReflTransGen.refl
        (WrapperStep.r1settle initState rfl))
      (WrapperStep.r2start ⟨none, RunPhase.settled, ReqPhase.waiting, []⟩ rfl rfl)
  ⟨hreach,
   single_orchestration_pass ⟨some 2, RunPhase.settled, ReqPhase.running, []⟩ hreach⟩
